import Mathlib

/-!
Verification model of the core of the `vircadia-web` client:
the `Domain` connection manager (URL normalization, connect/disconnect,
state-change handling, audio-client construction, persisted variables)
and the `ShapeEntityBuilder` entity-composition step.

Pure functions are translated directly from the TypeScript source.
External collaborators (the SDK transport `DomainServer`, the persistent
`Config` store, the `Signal` primitive, `DomainAudio`) are modelled from
the specification where their code is outside the repository sources.
-/

namespace Vircadia

/-! ## Character-level helpers

JavaScript `toLowerCase` is modelled by `Char.toLower` applied pointwise
(letter handling on the basic latin range, which is what the URLs use);
the regex `\d` (ASCII digits) is modelled by `Char.isDigit`. -/

/-- For code points in the lower-case latin range, `Char.ofNat` round-trips. -/
theorem toNat_ofNat_lower : ∀ n : Nat, n < 123 → 97 ≤ n → (Char.ofNat n).toNat = n := by
  decide

/-- Lower-casing a character twice is the same as lower-casing once. -/
theorem toLower_idem (c : Char) : Char.toLower (Char.toLower c) = Char.toLower c := by
  unfold Char.toLower
  by_cases h : 65 ≤ c.toNat ∧ c.toNat ≤ 90
  · rw [if_pos h]
    have h1 : (Char.ofNat (c.toNat + 32)).toNat = c.toNat + 32 :=
      toNat_ofNat_lower (c.toNat + 32) (by omega) (by omega)
    rw [h1, if_neg (by omega)]
  · rw [if_neg h, if_neg h]

/-- A digit is unchanged by lower-casing. -/
theorem toLower_digit (c : Char) (h : Char.isDigit c = true) : Char.toLower c = c := by
  unfold Char.toLower
  simp only [Char.isDigit, Bool.and_eq_true, decide_eq_true_eq] at h
  have h57 : c.val.toNat ≤ 57 := UInt32.toNat_le_of_le (by decide) h.2
  have : ¬(65 ≤ c.toNat ∧ c.toNat ≤ 90) := by
    intro hc
    simp only [Char.toNat] at hc
    omega
  rw [if_neg this]

/-! ## URL normalization (`Domain.cleanDomainUrl`)

Source (ShapeEntityBuilder.ts, `Domain.cleanDomainUrl`):
lower-case the input, strip a leading `http://` or `https://`, prepend
the configured default protocol plus `//` unless the string starts with
`ws://`, and append `:` plus the configured default port unless the
regex `:\d*$` already matches. The configured protocol `P` and port `N`
are passed as parameters (they come from the external `Config` store). -/

/-- Model of the regex test `(/:\d*$/u).exec(url)` being a match: the string
ends in a colon followed by zero or more digits. -/
def hasPortSuffix (s : List Char) : Bool :=
  (s.reverse.dropWhile Char.isDigit).head? == some ':'

/-- Strip a leading `http://` (7 characters), as in the source. -/
def stripHttp (u : List Char) : List Char :=
  if "http://".data.isPrefixOf u then u.drop 7 else u

/-- Strip a leading `https://` (8 characters), as in the source. -/
def stripHttps (u : List Char) : List Char :=
  if "https://".data.isPrefixOf u then u.drop 8 else u

/-- The scheme-stripping phase of `cleanDomainUrl`: remove a leading
`http://` (7 chars) and then a leading `https://` (8 chars). -/
def stripSchemes (u : List Char) : List Char :=
  stripHttps (stripHttp u)

/-- The protocol phase of `cleanDomainUrl`: prepend the default protocol
and `//` unless the string already starts with `ws://`. -/
def addWsScheme (P u : List Char) : List Char :=
  if "ws://".data.isPrefixOf u then u else P ++ "//".data ++ u

/-- The port phase of `cleanDomainUrl`: append `:` and the default port
unless a `:\d*$` suffix is already present. -/
def addPort (N u : List Char) : List Char :=
  if hasPortSuffix u then u else u ++ ":".data ++ N

/-- Model of `Domain.cleanDomainUrl` on character lists, with the configured default
protocol `P` and default port `N` as parameters. -/
def cleanChars (P N x : List Char) : List Char :=
  addPort N (addWsScheme P (stripSchemes (x.map Char.toLower)))

/-- Model of `Domain.cleanDomainUrl`, translated from the source. `P` is the value of
the configuration item `DEFAULT_DOMAIN_PROTOCOL` and `N` the value of
`DEFAULT_DOMAIN_PORT`. -/
def cleanDomainUrl (P N url : String) : String :=
  ⟨cleanChars P.data N.data url.data⟩

/-! ### List-level lemmas for the normalization phases -/

/-- A true `isPrefixOf` gives an explicit decomposition. -/
theorem isPrefixOf_ex : ∀ (p l : List Char), p.isPrefixOf l = true → ∃ t, l = p ++ t
  | [], l, _ => ⟨l, rfl⟩
  | _ :: _, [], h => by simp [List.isPrefixOf] at h
  | a :: as, b :: bs, h => by
    simp only [List.isPrefixOf, Bool.and_eq_true, beq_iff_eq] at h
    obtain ⟨t, ht⟩ := isPrefixOf_ex as bs h.2
    exact ⟨t, by simp [h.1, ht]⟩

/-- A list is a prefix of itself followed by anything. -/
theorem isPrefixOf_app : ∀ (p t : List Char), p.isPrefixOf (p ++ t) = true
  | [], _ => by simp [List.isPrefixOf]
  | a :: as, t => by simp [List.isPrefixOf, isPrefixOf_app as t]

/-- Computing `dropWhile` over an append, when the first part does not vanish. -/
theorem dropWhile_append_cons (p : Char → Bool) :
    ∀ (b a : List Char) (c : Char) (t : List Char), b.dropWhile p = c :: t →
      (b ++ a).dropWhile p = c :: (t ++ a)
  | [], _, _, _, h => by simp at h
  | x :: xs, a, c, t, h => by
    by_cases hx : p x
    · rw [List.dropWhile_cons_of_pos hx] at h
      rw [List.cons_append, List.dropWhile_cons_of_pos hx]
      exact dropWhile_append_cons p xs a c t h
    · rw [List.dropWhile_cons_of_neg hx] at h
      rw [List.cons_append, List.dropWhile_cons_of_neg hx]
      cases h
      simp

/-- The port test on `P ++ b` is decided inside `b` whenever the digit-run at
the end of `b` stops inside `b`. -/
theorem hasPortSuffix_append_left (P b : List Char) (c : Char) (t : List Char)
    (h : b.reverse.dropWhile Char.isDigit = c :: t) :
    hasPortSuffix (P ++ b) = (c == ':') := by
  unfold hasPortSuffix
  rw [List.reverse_append, dropWhile_append_cons Char.isDigit b.reverse P.reverse c t h]
  simp

/-- Lower-casing a list of characters is idempotent. -/
theorem map_toLower_idem (l : List Char) :
    (l.map Char.toLower).map Char.toLower = l.map Char.toLower := by
  rw [List.map_map]
  exact List.map_congr_left fun c _ => toLower_idem c

/-- A list of digits is unchanged by lower-casing. -/
theorem map_toLower_digits : ∀ (l : List Char), l.all Char.isDigit = true →
    l.map Char.toLower = l
  | [], _ => rfl
  | c :: cs, h => by
    simp only [List.all_cons, Bool.and_eq_true] at h
    simp [toLower_digit c h.1, map_toLower_digits cs h.2]

/-- Claim C3: with configured default protocol `P` and default port `N`,
`cleanDomainUrl` maps `"http://example.com"` to `P ++ "//example.com:" ++ N`,
maps `"https://example.com:400"` to `P ++ "//example.com:400"` (port preserved,
no default appended), and maps `"example.com"` to `P ++ "//example.com:" ++ N`. -/
theorem c3_cleanDomainUrl_examples (P N : String) :
    cleanDomainUrl P N "http://example.com" = P ++ "//example.com:" ++ N ∧
    cleanDomainUrl P N "https://example.com:400" = P ++ "//example.com:400" ∧
    cleanDomainUrl P N "example.com" = P ++ "//example.com:" ++ N := by
  refine ⟨?_, ?_, ?_⟩
  · show String.mk (cleanChars P.data N.data "http://example.com".data) = _
    unfold cleanChars
    rw [show stripSchemes ("http://example.com".data.map Char.toLower) =
      "example.com".data from by decide]
    unfold addWsScheme
    rw [if_neg (by decide)]
    rw [show P.data ++ "//".data ++ "example.com".data =
      P.data ++ "//example.com".data from by simp]
    unfold addPort
    rw [hasPortSuffix_append_left P.data "//example.com".data 'm'
      "oc.elpmaxe//".data (by decide)]
    rw [if_neg (by decide)]
    apply String.ext
    simp [List.append_assoc]
  · show String.mk (cleanChars P.data N.data "https://example.com:400".data) = _
    unfold cleanChars
    rw [show stripSchemes ("https://example.com:400".data.map Char.toLower) =
      "example.com:400".data from by decide]
    unfold addWsScheme
    rw [if_neg (by decide)]
    rw [show P.data ++ "//".data ++ "example.com:400".data =
      P.data ++ "//example.com:400".data from by simp]
    unfold addPort
    rw [hasPortSuffix_append_left P.data "//example.com:400".data ':'
      "moc.elpmaxe//".data (by decide)]
    rw [if_pos (by decide)]
    apply String.ext
    simp
  · show String.mk (cleanChars P.data N.data "example.com".data) = _
    unfold cleanChars
    rw [show stripSchemes ("example.com".data.map Char.toLower) =
      "example.com".data from by decide]
    unfold addWsScheme
    rw [if_neg (by decide)]
    rw [show P.data ++ "//".data ++ "example.com".data =
      P.data ++ "//example.com".data from by simp]
    unfold addPort
    rw [hasPortSuffix_append_left P.data "//example.com".data 'm'
      "oc.elpmaxe//".data (by decide)]
    rw [if_neg (by decide)]
    apply String.ext
    simp [List.append_assoc]

/-! ### Idempotence of normalization (for the `ws:` protocol, digit port) -/

/-- The scheme `http://` is never a prefix of a string starting with `w`. -/
theorem http_not_prefixOf_w (l : List Char) :
    "http://".data.isPrefixOf ('w' :: l) = false := by
  rw [show "http://".data = 'h' :: "ttp://".data from rfl, List.isPrefixOf_cons₂]
  have h : ('h' == 'w') = false := by decide
  simp [h]

/-- The scheme `https://` is never a prefix of a string starting with `w`. -/
theorem https_not_prefixOf_w (l : List Char) :
    "https://".data.isPrefixOf ('w' :: l) = false := by
  rw [show "https://".data = 'h' :: "ttps://".data from rfl, List.isPrefixOf_cons₂]
  have h : ('h' == 'w') = false := by decide
  simp [h]

/-- Scheme stripping leaves a `ws://`-prefixed string alone. -/
theorem stripSchemes_ws (r : List Char) :
    stripSchemes ("ws://".data ++ r) = "ws://".data ++ r := by
  have h1 := http_not_prefixOf_w ('s' :: ':' :: '/' :: '/' :: r)
  have h2 := https_not_prefixOf_w ('s' :: ':' :: '/' :: '/' :: r)
  show stripSchemes ('w' :: 's' :: ':' :: '/' :: '/' :: r) = _
  simp [stripSchemes, stripHttp, stripHttps, h1, h2]

/-- The protocol phase leaves a `ws://`-prefixed string alone. -/
theorem addWsScheme_ws (P r : List Char) :
    addWsScheme P ("ws://".data ++ r) = "ws://".data ++ r := by
  simp [addWsScheme, isPrefixOf_app]

/-- Appending `:` and a digit port makes the port test succeed. -/
theorem hasPortSuffix_append_digits (u N : List Char) (hN : N.all Char.isDigit = true) :
    hasPortSuffix (u ++ ":".data ++ N) = true := by
  unfold hasPortSuffix
  rw [List.reverse_append, List.reverse_append]
  have hall : ∀ a ∈ N.reverse, Char.isDigit a := by
    intro a ha
    exact List.all_eq_true.mp hN a (List.mem_reverse.mp ha)
  rw [List.dropWhile_append_of_pos hall]
  rw [show (":".data.reverse ++ u.reverse) = ':' :: u.reverse from rfl]
  rw [List.dropWhile_cons_of_neg (by decide)]
  rfl

/-- Dropping from the front preserves lower-case invariance. -/
theorem lower_inv_drop (l : List Char) (n : Nat) (h : l.map Char.toLower = l) :
    (l.drop n).map Char.toLower = l.drop n := by
  rw [List.map_drop, h]

/-- Stripping `http://` preserves lower-case invariance. -/
theorem lower_inv_stripHttp (l : List Char) (h : l.map Char.toLower = l) :
    (stripHttp l).map Char.toLower = stripHttp l := by
  unfold stripHttp
  split
  · exact lower_inv_drop _ 7 h
  · exact h

/-- Stripping `https://` preserves lower-case invariance. -/
theorem lower_inv_stripHttps (l : List Char) (h : l.map Char.toLower = l) :
    (stripHttps l).map Char.toLower = stripHttps l := by
  unfold stripHttps
  split
  · exact lower_inv_drop _ 8 h
  · exact h

/-- Scheme stripping preserves lower-case invariance. -/
theorem lower_inv_stripSchemes (l : List Char) (h : l.map Char.toLower = l) :
    (stripSchemes l).map Char.toLower = stripSchemes l :=
  lower_inv_stripHttps _ (lower_inv_stripHttp l h)

/-- The protocol phase (with protocol `ws:`) preserves lower-case invariance. -/
theorem lower_inv_addWsScheme (u : List Char) (h : u.map Char.toLower = u) :
    (addWsScheme "ws:".data u).map Char.toLower = addWsScheme "ws:".data u := by
  unfold addWsScheme
  split
  · exact h
  · rw [List.map_append, List.map_append, h]
    rfl

/-- The port phase (with a digit port) preserves lower-case invariance. -/
theorem lower_inv_addPort (N u : List Char) (hN : N.all Char.isDigit = true)
    (h : u.map Char.toLower = u) :
    (addPort N u).map Char.toLower = addPort N u := by
  unfold addPort
  split
  · exact h
  · rw [List.map_append, List.map_append, h, map_toLower_digits N hN]
    rfl

/-- A normalized URL (protocol `ws:`, digit port) is lower-case invariant. -/
theorem cleanChars_lower_inv (N x : List Char) (hN : N.all Char.isDigit = true) :
    (cleanChars "ws:".data N x).map Char.toLower = cleanChars "ws:".data N x := by
  unfold cleanChars
  exact lower_inv_addPort N _ hN
    (lower_inv_addWsScheme _ (lower_inv_stripSchemes _ (map_toLower_idem x)))

/-- A normalized URL (protocol `ws:`) starts with `ws://`. -/
theorem cleanChars_startsWith_ws (N x : List Char) :
    ∃ r, cleanChars "ws:".data N x = "ws://".data ++ r := by
  unfold cleanChars addWsScheme
  split
  · next h =>
    obtain ⟨t, ht⟩ := isPrefixOf_ex _ _ h
    rw [ht]
    unfold addPort
    split
    · exact ⟨t, rfl⟩
    · exact ⟨t ++ (":".data ++ N), by rw [List.append_assoc, List.append_assoc]⟩
  · rw [show "ws:".data ++ "//".data ++ stripSchemes (x.map Char.toLower) =
      "ws://".data ++ stripSchemes (x.map Char.toLower) from rfl]
    unfold addPort
    split
    · exact ⟨stripSchemes (x.map Char.toLower), rfl⟩
    · exact ⟨stripSchemes (x.map Char.toLower) ++ (":".data ++ N),
        by rw [List.append_assoc, List.append_assoc]⟩

/-- A normalized URL (digit port) passes the port test. -/
theorem cleanChars_port (P N x : List Char) (hN : N.all Char.isDigit = true) :
    hasPortSuffix (cleanChars P N x) = true := by
  unfold cleanChars addPort
  split
  · next h => exact h
  · exact hasPortSuffix_append_digits _ N hN

/-- Any lower-case invariant, `ws://`-prefixed string passing the port test is
a fixed point of normalization. -/
theorem cleanChars_fixed (N y : List Char)
    (hlow : y.map Char.toLower = y) (hws : ∃ r, y = "ws://".data ++ r)
    (hport : hasPortSuffix y = true) :
    cleanChars "ws:".data N y = y := by
  obtain ⟨r, rfl⟩ := hws
  unfold cleanChars
  rw [hlow, stripSchemes_ws, addWsScheme_ws]
  unfold addPort
  rw [if_pos hport]

/-- Normalization with protocol `ws:` and a digit port is idempotent. -/
theorem cleanChars_idem (N x : List Char) (hN : N.all Char.isDigit = true) :
    cleanChars "ws:".data N (cleanChars "ws:".data N x) = cleanChars "ws:".data N x :=
  cleanChars_fixed N _ (cleanChars_lower_inv N x hN) (cleanChars_startsWith_ws N x)
    (cleanChars_port _ N x hN)

/-- Claim C4 (amended): URL normalization is idempotent when the configured
default protocol is the websocket scheme `ws:` and the configured default port
is a string of digits: `cleanDomainUrl (cleanDomainUrl x) = cleanDomainUrl x`
for every input `x`. (As stated over an arbitrary configured protocol the
claim fails: see the counterexample with protocol `wss:`.) -/
theorem c4_cleanDomainUrl_idem_ws (N x : String) (hN : N.data.all Char.isDigit = true) :
    cleanDomainUrl "ws:" N (cleanDomainUrl "ws:" N x) = cleanDomainUrl "ws:" N x :=
  congrArg String.mk (cleanChars_idem N.data x.data hN)

/-- Witness for C4 (amended) at port `"40102"` and input `"Example.com"`. -/
theorem c4_cleanDomainUrl_idem_ws_witness :
    ("40102" : String).data.all Char.isDigit = true ∧
    cleanDomainUrl "ws:" "40102" (cleanDomainUrl "ws:" "40102" "Example.com") =
      cleanDomainUrl "ws:" "40102" "Example.com" :=
  ⟨by decide, c4_cleanDomainUrl_idem_ws "40102" "Example.com" (by decide)⟩

/-- Counterexample to C4 as stated: with the configured default protocol held
fixed at `wss:` (a value the code's `ws://`-prefix test does not recognize)
and default port `40102`, normalizing the already-normalized URL for
`example.com` prepends the protocol a second time, so normalization is not
idempotent. -/
theorem c4_counterexample :
    cleanDomainUrl "wss:" "40102" (cleanDomainUrl "wss:" "40102" "example.com") ≠
      cleanDomainUrl "wss:" "40102" "example.com" := by
  decide

/-! ### Inputs ending in a bare colon -/

/-- A string ending in a colon passes the port test (the pattern `:\d*$`
accepts zero digits). -/
theorem hasPortSuffix_of_ends_colon (l : List Char) (h : l.reverse.head? = some ':') :
    hasPortSuffix l = true := by
  unfold hasPortSuffix
  cases hl : l.reverse with
  | nil => rw [hl] at h; simp at h
  | cons c t =>
    rw [hl] at h
    simp only [List.head?_cons, Option.some.injEq] at h
    rw [List.dropWhile_cons_of_neg (by rw [h]; decide)]
    simp [h]

/-- If an appended list ends in a colon but the left part does not, the right
part ends in that colon. -/
theorem ends_colon_of_append (p t : List Char) (hp : p.reverse.head? ≠ some ':')
    (h : (p ++ t).reverse.head? = some ':') : t.reverse.head? = some ':' := by
  cases ht : t.reverse with
  | nil =>
    rw [List.reverse_eq_nil_iff] at ht
    subst ht
    rw [List.append_nil] at h
    exact absurd h hp
  | cons c t' =>
    rw [List.reverse_append, ht, List.cons_append, List.head?_cons] at h
    simp only [List.head?_cons]
    exact h

/-- Prepending anything preserves a trailing colon. -/
theorem ends_colon_append_left (a u : List Char) (h : u.reverse.head? = some ':') :
    ((a ++ u).reverse.head?) = some ':' := by
  cases hu : u.reverse with
  | nil => rw [hu] at h; simp at h
  | cons c t =>
    rw [hu] at h
    simp only [List.head?_cons] at h
    rw [List.reverse_append, hu, List.cons_append, List.head?_cons]
    exact h

/-- Lower-casing preserves a trailing colon. -/
theorem ends_colon_map_toLower (l : List Char) (h : l.reverse.head? = some ':') :
    ((l.map Char.toLower).reverse.head?) = some ':' := by
  rw [← List.map_reverse, List.head?_map, h]
  rfl

/-- Stripping `http://` preserves a trailing colon. -/
theorem ends_colon_stripHttp (l : List Char) (h : l.reverse.head? = some ':') :
    ((stripHttp l).reverse.head?) = some ':' := by
  unfold stripHttp
  split
  · next hc =>
    obtain ⟨t, rfl⟩ := isPrefixOf_ex _ _ hc
    rw [show (7 : Nat) = "http://".data.length from rfl, List.drop_left]
    exact ends_colon_of_append _ _ (by decide) h
  · exact h

/-- Stripping `https://` preserves a trailing colon. -/
theorem ends_colon_stripHttps (l : List Char) (h : l.reverse.head? = some ':') :
    ((stripHttps l).reverse.head?) = some ':' := by
  unfold stripHttps
  split
  · next hc =>
    obtain ⟨t, rfl⟩ := isPrefixOf_ex _ _ hc
    rw [show (8 : Nat) = "https://".data.length from rfl, List.drop_left]
    exact ends_colon_of_append _ _ (by decide) h
  · exact h

/-- The protocol phase preserves a trailing colon. -/
theorem ends_colon_addWsScheme (P u : List Char) (h : u.reverse.head? = some ':') :
    ((addWsScheme P u).reverse.head?) = some ':' := by
  unfold addWsScheme
  split
  · exact h
  · rw [show P ++ "//".data ++ u = (P ++ "//".data) ++ u from by
      rw [List.append_assoc]]
    exact ends_colon_append_left _ _ h

/-- Claim C10: for every input string ending in a bare colon (a trailing `:`),
`cleanDomainUrl` treats the colon as an existing port suffix: the port
pattern (which accepts zero digits) matches the input, the result does not
depend on the configured default port (no default port is appended), and the
returned URL still ends in the bare colon. -/
theorem c10_bare_colon_no_port (P N N' x : String)
    (h : x.data.reverse.head? = some ':') :
    hasPortSuffix x.data = true ∧
    cleanDomainUrl P N x = cleanDomainUrl P N' x ∧
    (cleanDomainUrl P N x).data.reverse.head? = some ':' := by
  have hu3 : ((addWsScheme P.data (stripSchemes (x.data.map Char.toLower))).reverse.head?)
      = some ':' :=
    ends_colon_addWsScheme _ _
      (ends_colon_stripHttps _ (ends_colon_stripHttp _ (ends_colon_map_toLower _ h)))
  have hport := hasPortSuffix_of_ends_colon _ hu3
  refine ⟨hasPortSuffix_of_ends_colon _ h, ?_, ?_⟩
  · show String.mk (cleanChars P.data N.data x.data) = String.mk (cleanChars P.data N'.data x.data)
    unfold cleanChars addPort
    rw [if_pos hport, if_pos hport]
  · show (String.mk (cleanChars P.data N.data x.data)).data.reverse.head? = some ':'
    unfold cleanChars addPort
    rw [if_pos hport]
    exact hu3

/-- Witness for C10 at input `"example.com:"`, protocol `ws:`, and two
different default ports. -/
theorem c10_bare_colon_no_port_witness :
    ("example.com:" : String).data.reverse.head? = some ':' ∧
    (hasPortSuffix ("example.com:" : String).data = true ∧
      cleanDomainUrl "ws:" "40102" "example.com:" = cleanDomainUrl "ws:" "1" "example.com:" ∧
      (cleanDomainUrl "ws:" "40102" "example.com:").data.reverse.head? = some ':') :=
  ⟨by decide, c10_bare_colon_no_port "ws:" "40102" "1" "example.com:" (by decide)⟩

/-! ## The Domain connection manager

The `Domain` class owns at most one `DomainServer` (the SDK transport,
external to the repository), lazily creates one `DomainAudio`, republishes
raw state transitions on its `onStateChange` signal, and reads/writes the
persistent `Config` store. Signal emissions are modelled as an event trace;
the manager argument passed to each emission is the constant `this`
reference and is not modelled as data. -/

/-- The SDK's connection states (`DomainServer.DISCONNECTED` …). -/
inductive ConnectionState where
  | DISCONNECTED
  | CONNECTING
  | CONNECTED
  | REFUSED
  | ERROR
deriving DecidableEq, Repr

/-- Modelled from the spec: the SDK's `DomainServer.stateToString` display
strings for the raw connection states (the SDK is external to the sources). -/
def stateToString : ConnectionState → String
  | .DISCONNECTED => "Disconnected"
  | .CONNECTING => "Connecting"
  | .CONNECTED => "Connected"
  | .REFUSED => "Refused"
  | .ERROR => "Error"

/-- Modelled from the spec: the SDK transport (Connection Session). It exposes
a raw `state`, an opaque `contextID` handle, and a settable state-changed
callback (tracked here as a flag). -/
structure DomainServer where
  state : ConnectionState
  contextID : Nat
  handlerRegistered : Bool
deriving DecidableEq, Repr

/-- Modelled from the spec: `new DomainServer()` starts Disconnected with no
state-change handler registered; the context handle is opaque (fixed 0). -/
def DomainServer.new : DomainServer :=
  { state := ConnectionState.DISCONNECTED, contextID := 0, handlerRegistered := false }

/-- Modelled from the spec: the Audio Session, constructed from the
session's context handle (`new DomainAudio(contextID)`). -/
structure DomainAudio where
  contextID : Nat
deriving DecidableEq, Repr

/-- Modelled from the spec: the persistent key/value Config store, newest
entry first. -/
abbrev Config := List (String × String)

/-- Model of `Config.getItem(key, default)`: the stored value, or the default. A
single-argument `getItem` call is modelled with default `""`. -/
def Config.getItem (cfg : Config) (key deflt : String) : String :=
  (cfg.lookup key).getD deflt

/-- Model of `Config.setItem(key, value)`. -/
def Config.setItem (cfg : Config) (key val : String) : Config :=
  (key, val) :: cfg

/-- The persistence key `DomainPersist.DOMAIN_URL` from the source. -/
def DomainPersist_DOMAIN_URL : String := "Domain.Url"

/-- Modelled from the spec: the configuration key for the default domain
protocol (the key constant lives in the external `@Base/config`; only its
role as an opaque key matters here). -/
def DEFAULT_DOMAIN_PROTOCOL : String := "DEFAULT_DOMAIN_PROTOCOL"

/-- Modelled from the spec: the configuration key for the default domain
port (see `DEFAULT_DOMAIN_PROTOCOL`). -/
def DEFAULT_DOMAIN_PORT : String := "DEFAULT_DOMAIN_PORT"

/-- The `Domain` connection manager's fields: the current normalized URL,
at most one Connection Session, at most one Audio Session. -/
structure Domain where
  domainUrl : String
  domain : Option DomainServer
  audioClient : Option DomainAudio
deriving DecidableEq, Repr

/-- The `Domain` constructor: creates the signal (modelled as the trace) and
restores persisted variables — `domainUrl` from the store, default
`"UNKNOWN"`. -/
def Domain.new (cfg : Config) : Domain :=
  { domainUrl := Config.getItem cfg DomainPersist_DOMAIN_URL "UNKNOWN",
    domain := none, audioClient := none }

/-- Model of `Domain.connect(url)`: throws if a session already exists; otherwise sets
the normalized URL, creates a new `DomainServer`, registers the state-change
handler, and issues the (asynchronous) SDK connect. The returned store is
the input store: the source performs no `Config.setItem` here. -/
def Domain.connect (cfg : Config) (d : Domain) (pUrl : String) :
    Except String (Config × Domain) :=
  match d.domain with
  | some _ => Except.error "Attempt to connect to domain when already connected"
  | none =>
    Except.ok (cfg,
      { d with
        domainUrl := cleanDomainUrl (Config.getItem cfg DEFAULT_DOMAIN_PROTOCOL "")
          (Config.getItem cfg DEFAULT_DOMAIN_PORT "") pUrl,
        domain := some { DomainServer.new with handlerRegistered := true } })

/-- Model of `Domain.disconnect()`: if a session exists, ask it to disconnect and drop
the reference. Note the source does NOT clear `#_audioClient`. -/
def Domain.disconnect (d : Domain) : Domain :=
  match d.domain with
  | some _ => { d with domain := none }
  | none => d

/-- Model of `Domain._handleOnDomainStateChange(state, info)`: on Connected, if a
session exists and no audio client does, construct a `DomainAudio` from the
session's context handle; in all cases emit (state string, info) on the
signal. Returns (new manager state, emission, number of `DomainAudio`
constructions performed). -/
def Domain.handleOnDomainStateChange (d : Domain) (pState : ConnectionState)
    (pInfo : String) : Domain × (String × String) × Nat :=
  let r :=
    if pState = ConnectionState.CONNECTED then
      match d.domain, d.audioClient with
      | some ds, none =>
        ({ d with audioClient := some { contextID := ds.contextID } }, 1)
      | _, _ => (d, 0)
    else (d, 0)
  (r.1, (stateToString pState, pInfo), r.2)

/-- Model of `Domain.storePersistentVariables()`: write the current URL under the
domain-URL key. -/
def Domain.storePersistentVariables (cfg : Config) (d : Domain) : Config :=
  Config.setItem cfg DomainPersist_DOMAIN_URL d.domainUrl

/-- The operations a run of the manager can observe: a `connect` call, a
`disconnect` call, or a raw state-change callback from the transport. -/
inductive Op where
  | connect (url : String)
  | disconnect
  | stateChange (s : ConnectionState) (info : String)

/-- A manager state together with the store, the trace of signal emissions,
and the number of `DomainAudio` constructions so far. -/
structure RunState where
  cfg : Config
  dom : Domain
  emits : List (String × String)
  creations : Nat
deriving DecidableEq, Repr

/-- One operation applied to a run state. A `connect` that throws leaves the
state unchanged (the source throws before mutating anything). A raw state
change first updates the transport's own `state` property, then invokes the
manager's handler. -/
def step (rs : RunState) (op : Op) : RunState :=
  match op with
  | Op.connect url =>
    match Domain.connect rs.cfg rs.dom url with
    | Except.ok (cfg', d') => { rs with cfg := cfg', dom := d' }
    | Except.error _ => rs
  | Op.disconnect => { rs with dom := rs.dom.disconnect }
  | Op.stateChange s info =>
    let d0 : Domain :=
      { rs.dom with domain := rs.dom.domain.map fun ds => { ds with state := s } }
    let r := Domain.handleOnDomainStateChange d0 s info
    { rs with dom := r.1, emits := rs.emits ++ [r.2.1], creations := rs.creations + r.2.2 }

/-- A sequence of operations applied in order. -/
def run (rs : RunState) (ops : List Op) : RunState :=
  ops.foldl step rs

/-- The initial run state: a fresh manager created over the store `cfg`. -/
def initRS (cfg : Config) : RunState :=
  { cfg := cfg, dom := Domain.new cfg, emits := [], creations := 0 }

/-! ## The entity builder (`ShapeEntityBuilder`) -/

/-- Modelled from the spec: an Entity Record of the Shape kind — the unique
identifier stands in for the kind-specific payload, which the builder passes
through unchanged. -/
structure IShapeEntity where
  id : String
deriving DecidableEq

/-- The behavior components a composite object can hold; the Shape builder
attaches a `ShapeEntityController` built from the entity record. -/
inductive Component where
  | shapeEntityController (entity : IShapeEntity)
deriving DecidableEq

/-- The Composite Object (`GameObject`): an ordered collection of components. -/
structure GameObject where
  components : List Component
deriving DecidableEq

/-- Model of `GameObject.addComponent`: append one component. -/
def GameObject.addComponent (g : GameObject) (c : Component) : GameObject :=
  { components := g.components ++ [c] }

/-- Model of `ShapeEntityBuilder.build(gameObject, entity)`: add one
`ShapeEntityController` constructed from the entity. -/
def ShapeEntityBuilder.build (g : GameObject) (entity : IShapeEntity) : GameObject :=
  g.addComponent (Component.shapeEntityController entity)

/-! ## Claim C1: the audio-session invariant -/

/-- Claim C1's spec-side predicate, stated from the spec's words: tracks
(session live, at least one Connected observed since the CURRENT Connection
Session was created). The observation resets on `connect` and is cleared by
`disconnect` (no current session). -/
def sinceAux : Bool × Bool → Op → Bool × Bool
  | (live, saw), Op.connect _ => if live then (live, saw) else (true, false)
  | _, Op.disconnect => (false, false)
  | (live, saw), Op.stateChange s _ =>
    (live, saw || (live && (s == ConnectionState.CONNECTED)))

/-- Whether at least one Connected raw state has been observed since the
current Connection Session was created (false when no session is live). -/
def sawConnectedSinceSession (ops : List Op) : Bool :=
  (ops.foldl sinceAux (false, false)).2

/-- The amended predicate the code actually maintains: at least one Connected
raw state observed while SOME session was live, at any time since the
manager was created (`disconnect` does not clear the audio client). -/
def everAux : Bool × Bool → Op → Bool × Bool
  | (_, saw), Op.connect _ => (true, saw)
  | (_, saw), Op.disconnect => (false, saw)
  | (live, saw), Op.stateChange s _ =>
    (live, saw || (live && (s == ConnectionState.CONNECTED)))

/-- Whether a Connected raw state has ever been observed while a session was
live. -/
def sawConnectedWhileLive (ops : List Op) : Bool :=
  (ops.foldl everAux (false, false)).2

/-- One step preserves the correspondence between the manager's fields and
the (live, ever-saw-Connected) abstraction. -/
theorem step_ever (rs : RunState) (op : Op) :
    ((step rs op).dom.domain.isSome, (step rs op).dom.audioClient.isSome) =
      everAux (rs.dom.domain.isSome, rs.dom.audioClient.isSome) op := by
  cases op with
  | connect url =>
    cases hd : rs.dom.domain with
    | none => simp [step, Domain.connect, hd, everAux]
    | some ds => simp [step, Domain.connect, hd, everAux]
  | disconnect =>
    cases hd : rs.dom.domain with
    | none => simp [step, Domain.disconnect, hd, everAux]
    | some ds => simp [step, Domain.disconnect, hd, everAux]
  | stateChange s info =>
    cases hd : rs.dom.domain with
    | none =>
      by_cases hs : s = ConnectionState.CONNECTED <;>
        simp [step, Domain.handleOnDomainStateChange, hd, hs, everAux]
    | some ds =>
      cases ha : rs.dom.audioClient with
      | none =>
        by_cases hs : s = ConnectionState.CONNECTED <;>
          simp [step, Domain.handleOnDomainStateChange, hd, ha, hs, everAux, beq_iff_eq]
      | some a =>
        by_cases hs : s = ConnectionState.CONNECTED <;>
          simp [step, Domain.handleOnDomainStateChange, hd, ha, hs, everAux]

/-- Running any operation sequence keeps the manager's session and audio
fields in correspondence with the folded abstraction. -/
theorem run_ever (ops : List Op) : ∀ rs : RunState,
    ((run rs ops).dom.domain.isSome, (run rs ops).dom.audioClient.isSome) =
      ops.foldl everAux (rs.dom.domain.isSome, rs.dom.audioClient.isSome) := by
  induction ops with
  | nil => intro rs; rfl
  | cons op ops ih =>
    intro rs
    show ((run (step rs op) ops).dom.domain.isSome,
        (run (step rs op) ops).dom.audioClient.isSome) = _
    rw [ih (step rs op), List.foldl_cons, ← step_ever rs op]

/-- Claim C1 (amended): for every reachable state of the manager, an Audio
Session exists if and only if at least one Connected raw state has been
observed while a Connection Session was live at ANY time since the manager
was created. (`disconnect` discards the Connection Session but NOT the Audio
Session, so the as-stated invariant — relative to the current session —
fails; see the counterexample.) -/
theorem c1_audio_iff_sawConnectedWhileLive (cfg : Config) (ops : List Op) :
    (run (initRS cfg) ops).dom.audioClient.isSome = sawConnectedWhileLive ops := by
  have h := run_ever ops (initRS cfg)
  have h2 := congrArg Prod.snd h
  simpa [initRS, Domain.new, sawConnectedWhileLive] using h2

/-- Counterexample to C1 as stated: after `connect`, one Connected callback,
and `disconnect`, no Connection Session exists — so nothing has been
observed since a current session was created (the claim-side predicate is
false, and the claim's "disconnect discards the Audio Session" requires the
audio client to be gone) — yet the Audio Session is still there. -/
theorem c1_counterexample :
    ((run (initRS []) [Op.connect "example.com",
        Op.stateChange ConnectionState.CONNECTED "ok", Op.disconnect]).dom.audioClient.isSome
      = true) ∧
    ((run (initRS []) [Op.connect "example.com",
        Op.stateChange ConnectionState.CONNECTED "ok", Op.disconnect]).dom.domain = none) ∧
    (sawConnectedSinceSession [Op.connect "example.com",
        Op.stateChange ConnectionState.CONNECTED "ok", Op.disconnect] = false) := by
  decide

/-! ## Claims C2, C5, C8: connect and disconnect behaviour -/

/-- Claim C2 (amended): `connect(url)` with no live Connection Session sets
the manager's in-memory URL to the normalized url, constructs the new
session with the state-change handler registered — but it does NOT write to
the persistent configuration store: the store comes back unchanged. The
normalized URL reaches the store under the domain-URL key only through an
explicit `storePersistentVariables()` call. -/
theorem c2_connect_no_persist (cfg : Config) (d : Domain) (url : String)
    (h : d.domain = none) :
    Domain.connect cfg d url = Except.ok (cfg,
      { d with
        domainUrl := cleanDomainUrl (Config.getItem cfg DEFAULT_DOMAIN_PROTOCOL "")
          (Config.getItem cfg DEFAULT_DOMAIN_PORT "") url,
        domain := some { DomainServer.new with handlerRegistered := true } }) ∧
    (∀ (d' : Domain) (deflt : String),
      Config.getItem (Domain.storePersistentVariables cfg d')
        DomainPersist_DOMAIN_URL deflt = d'.domainUrl) := by
  constructor
  · unfold Domain.connect
    rw [h]
  · intro d' deflt
    simp [Domain.storePersistentVariables, Config.setItem, Config.getItem, List.lookup]

/-- Witness for C2 (amended) on a fresh manager over the empty store. -/
theorem c2_connect_no_persist_witness :
    (Domain.new []).domain = none ∧
    (Domain.connect [] (Domain.new []) "example.com" = Except.ok (([] : Config),
      { Domain.new [] with
        domainUrl := cleanDomainUrl (Config.getItem [] DEFAULT_DOMAIN_PROTOCOL "")
          (Config.getItem [] DEFAULT_DOMAIN_PORT "") "example.com",
        domain := some { DomainServer.new with handlerRegistered := true } }) ∧
    (∀ (d' : Domain) (deflt : String),
      Config.getItem (Domain.storePersistentVariables [] d')
        DomainPersist_DOMAIN_URL deflt = d'.domainUrl)) :=
  ⟨rfl, c2_connect_no_persist [] (Domain.new []) "example.com" rfl⟩

/-- Counterexample to C2 as stated: over a store holding protocol `ws:` and
port `40102` but no domain URL, `connect("example.com")` on a fresh manager
returns a store in which the domain-URL key is still absent (`getItem`
falls back to the default `"UNKNOWN"`), even though the in-memory normalized
URL is `"ws://example.com:40102"` — nothing was persisted before returning. -/
theorem c2_counterexample :
    (Domain.connect [(DEFAULT_DOMAIN_PROTOCOL, "ws:"), (DEFAULT_DOMAIN_PORT, "40102")]
        (Domain.new [(DEFAULT_DOMAIN_PROTOCOL, "ws:"), (DEFAULT_DOMAIN_PORT, "40102")])
        "example.com").toOption.map
      (fun p => (Config.getItem p.1 DomainPersist_DOMAIN_URL "UNKNOWN", p.2.domainUrl)) =
    some ("UNKNOWN", "ws://example.com:40102") := by
  decide

/-- Claim C5: calling `connect` while a Connection Session is live fails with
the AlreadyConnected error, and a step of the run semantics leaves the
store, the manager (session, URL, audio client), the emission trace, and the
creation count exactly as they were. -/
theorem c5_connect_already_connected (cfg : Config) (d : Domain) (url : String)
    (s : DomainServer) (h : d.domain = some s) :
    Domain.connect cfg d url =
      Except.error "Attempt to connect to domain when already connected" ∧
    (∀ (em : List (String × String)) (cr : Nat),
      step { cfg := cfg, dom := d, emits := em, creations := cr } (Op.connect url) =
        { cfg := cfg, dom := d, emits := em, creations := cr }) := by
  have hc : Domain.connect cfg d url =
      Except.error "Attempt to connect to domain when already connected" := by
    unfold Domain.connect
    rw [h]
  refine ⟨hc, fun em cr => ?_⟩
  simp [step, hc]

/-- A manager already holding a (fresh) live session, for concrete tests. -/
def connectedDomain : Domain :=
  { domainUrl := "UNKNOWN", domain := some DomainServer.new, audioClient := none }

/-- Witness for C5: a manager holding a fresh session refuses a second
`connect`. -/
theorem c5_connect_already_connected_witness :
    connectedDomain.domain = some DomainServer.new ∧
    (Domain.connect [] connectedDomain "example.com" =
      Except.error "Attempt to connect to domain when already connected" ∧
    (∀ (em : List (String × String)) (cr : Nat),
      step { cfg := [], dom := connectedDomain, emits := em, creations := cr }
          (Op.connect "example.com") =
        { cfg := [], dom := connectedDomain, emits := em, creations := cr })) :=
  ⟨rfl, c5_connect_already_connected [] connectedDomain "example.com" DomainServer.new rfl⟩

/-- Claim C8: `disconnect()` with no Connection Session is a no-op: it cannot
raise (it is total), the manager is returned unchanged, and a run step
leaves the store, trace, and counters untouched. -/
theorem c8_disconnect_noop (d : Domain) (h : d.domain = none) :
    d.disconnect = d ∧
    (∀ (cfg : Config) (em : List (String × String)) (cr : Nat),
      step { cfg := cfg, dom := d, emits := em, creations := cr } Op.disconnect =
        { cfg := cfg, dom := d, emits := em, creations := cr }) := by
  have hd : d.disconnect = d := by
    unfold Domain.disconnect
    rw [h]
  refine ⟨hd, fun cfg em cr => ?_⟩
  simp [step, hd]

/-- Witness for C8 on a fresh manager. -/
theorem c8_disconnect_noop_witness :
    (Domain.new []).domain = none ∧
    ((Domain.new []).disconnect = Domain.new [] ∧
    (∀ (cfg : Config) (em : List (String × String)) (cr : Nat),
      step { cfg := cfg, dom := Domain.new [], emits := em, creations := cr } Op.disconnect =
        { cfg := cfg, dom := Domain.new [], emits := em, creations := cr })) :=
  ⟨rfl, c8_disconnect_noop (Domain.new []) rfl⟩

/-! ## Claim C6: one ordered emission per raw transition -/

/-- Claim C6: for every starting state and every sequence of raw transport
state transitions delivered to the handler, exactly one signal emission
occurs per transition, carrying the display string of the new state and the
info string (the first emission argument is the constant manager reference
`this`), and the emissions extend the trace in exactly transition order. -/
theorem c6_emissions_per_transition (rs : RunState)
    (ts : List (ConnectionState × String)) :
    (run rs (ts.map fun t => Op.stateChange t.1 t.2)).emits =
      rs.emits ++ ts.map fun t => (stateToString t.1, t.2) := by
  induction ts generalizing rs with
  | nil => simp [run]
  | cons t ts ih =>
    rw [List.map_cons, List.map_cons]
    show (run (step rs (Op.stateChange t.1 t.2)) (ts.map fun t => Op.stateChange t.1 t.2)).emits
      = _
    rw [ih (step rs (Op.stateChange t.1 t.2))]
    show (rs.emits ++ [(stateToString t.1, t.2)]) ++ ts.map (fun t => (stateToString t.1, t.2))
      = _
    rw [List.append_assoc]
    rfl

/-! ## Claim C7: the audio session is created at the first Connected -/

/-- Folding state-change callbacks over a manager with a live session: the
audio client exists afterwards iff it existed before or some callback was
Connected; no `DomainAudio` is constructed when one already exists, and at
most one is constructed otherwise; the session stays live. -/
theorem run_stateChanges (ts : List (ConnectionState × String)) :
    ∀ (rs : RunState) (ds : DomainServer), rs.dom.domain = some ds →
    ((run rs (ts.map fun t => Op.stateChange t.1 t.2)).dom.audioClient.isSome =
      (rs.dom.audioClient.isSome ||
        ts.any fun t => t.1 == ConnectionState.CONNECTED)) ∧
    ((run rs (ts.map fun t => Op.stateChange t.1 t.2)).creations =
      rs.creations + (if rs.dom.audioClient.isSome then 0
        else if ts.any (fun t => t.1 == ConnectionState.CONNECTED) then 1 else 0)) := by
  induction ts with
  | nil => intro rs ds hd; simp [run]
  | cons t ts ih =>
    intro rs ds hd
    rw [List.map_cons]
    have hstep : run rs (Op.stateChange t.1 t.2 :: ts.map fun t => Op.stateChange t.1 t.2) =
        run (step rs (Op.stateChange t.1 t.2)) (ts.map fun t => Op.stateChange t.1 t.2) := rfl
    rw [hstep]
    by_cases hs : t.1 = ConnectionState.CONNECTED
    · cases ha : rs.dom.audioClient with
      | none =>
        have hd' : (step rs (Op.stateChange t.1 t.2)).dom.domain =
            some { ds with state := t.1 } := by
          simp [step, Domain.handleOnDomainStateChange, hd, ha, hs]
        obtain ⟨h1, h2⟩ := ih (step rs (Op.stateChange t.1 t.2)) _ hd'
        rw [h1, h2]
        simp [step, Domain.handleOnDomainStateChange, hd, ha, hs]
      | some a =>
        have hd' : (step rs (Op.stateChange t.1 t.2)).dom.domain =
            some { ds with state := t.1 } := by
          simp [step, Domain.handleOnDomainStateChange, hd, ha, hs]
        obtain ⟨h1, h2⟩ := ih (step rs (Op.stateChange t.1 t.2)) _ hd'
        rw [h1, h2]
        simp [step, Domain.handleOnDomainStateChange, hd, ha, hs]
    · have hd' : (step rs (Op.stateChange t.1 t.2)).dom.domain =
          some { ds with state := t.1 } := by
        simp [step, Domain.handleOnDomainStateChange, hd, hs]
      obtain ⟨h1, h2⟩ := ih (step rs (Op.stateChange t.1 t.2)) _ hd'
      rw [h1, h2]
      have hb : (t.1 == ConnectionState.CONNECTED) = false := by
        simp [beq_iff_eq]
        exact hs
      simp [step, Domain.handleOnDomainStateChange, hd, hs, hb]
      rw [hb]
      simp only [Bool.false_or]

/-- Claim C7: within one Connection Session's lifetime (a single `connect`
from a fresh manager followed only by raw state-change callbacks), at most
one `DomainAudio` is ever constructed — exactly one if some callback is
Connected, none otherwise — and for every prefix of the callback sequence
the audio client exists exactly when the prefix already contains a Connected
transition (i.e. it is created at the first Connected observation and never
reconstructed). -/
theorem c7_audio_first_connected (cfg : Config) (url : String)
    (cs ps : List (ConnectionState × String)) (h : ∃ rest, cs = ps ++ rest) :
    ((run (initRS cfg) (Op.connect url :: cs.map fun t => Op.stateChange t.1 t.2)).creations =
      if cs.any (fun t => t.1 == ConnectionState.CONNECTED) then 1 else 0) ∧
    ((run (initRS cfg)
        (Op.connect url :: ps.map fun t => Op.stateChange t.1 t.2)).dom.audioClient.isSome =
      ps.any fun t => t.1 == ConnectionState.CONNECTED) := by
  obtain ⟨rest, rfl⟩ := h
  have key : ∀ ts : List (ConnectionState × String),
      ((run (initRS cfg) (Op.connect url :: ts.map fun t => Op.stateChange t.1 t.2)).creations =
        if ts.any (fun t => t.1 == ConnectionState.CONNECTED) then 1 else 0) ∧
      ((run (initRS cfg)
          (Op.connect url :: ts.map fun t => Op.stateChange t.1 t.2)).dom.audioClient.isSome =
        ts.any fun t => t.1 == ConnectionState.CONNECTED) := by
    intro ts
    have hrun : run (initRS cfg) (Op.connect url :: ts.map fun t => Op.stateChange t.1 t.2) =
        run (step (initRS cfg) (Op.connect url)) (ts.map fun t => Op.stateChange t.1 t.2) := rfl
    have hd1 : (step (initRS cfg) (Op.connect url)).dom.domain =
        some { DomainServer.new with handlerRegistered := true } := by
      simp [initRS, step, Domain.connect, Domain.new]
    have ha1 : (step (initRS cfg) (Op.connect url)).dom.audioClient = none := by
      simp [initRS, step, Domain.connect, Domain.new]
    have hc1 : (step (initRS cfg) (Op.connect url)).creations = 0 := by
      simp [initRS, step, Domain.connect, Domain.new]
    obtain ⟨h1, h2⟩ := run_stateChanges ts (step (initRS cfg) (Op.connect url)) _ hd1
    rw [hrun]
    constructor
    · rw [h2, ha1, hc1]
      simp
    · rw [h1, ha1]
      simp
  exact ⟨(key (ps ++ rest)).1, (key ps).2⟩

/-- Witness for C7: two Connected callbacks after one `connect` construct the
audio client exactly once, and it exists already after the first. -/
theorem c7_audio_first_connected_witness :
    (∃ rest, [(ConnectionState.CONNECTED, "a"), (ConnectionState.CONNECTED, "b")] =
      [(ConnectionState.CONNECTED, "a")] ++ rest) ∧
    (((run (initRS []) (Op.connect "example.com" ::
        ([(ConnectionState.CONNECTED, "a"), (ConnectionState.CONNECTED, "b")].map
          fun t => Op.stateChange t.1 t.2))).creations =
      if [(ConnectionState.CONNECTED, "a"), (ConnectionState.CONNECTED, "b")].any
          (fun t => t.1 == ConnectionState.CONNECTED) then 1 else 0) ∧
    ((run (initRS []) (Op.connect "example.com" ::
        ([(ConnectionState.CONNECTED, "a")].map
          fun t => Op.stateChange t.1 t.2))).dom.audioClient.isSome =
      [(ConnectionState.CONNECTED, "a")].any fun t => t.1 == ConnectionState.CONNECTED)) :=
  ⟨⟨[(ConnectionState.CONNECTED, "b")], rfl⟩,
    c7_audio_first_connected [] "example.com"
      [(ConnectionState.CONNECTED, "a"), (ConnectionState.CONNECTED, "b")]
      [(ConnectionState.CONNECTED, "a")]
      ⟨[(ConnectionState.CONNECTED, "b")], rfl⟩⟩

/-! ## Claim C9: the Shape builder attaches exactly one component -/

/-- Claim C9: one invocation of `ShapeEntityBuilder.build(g, e)` adds exactly
one component — a `ShapeEntityController` constructed from `e` — after `g`'s
existing components and nothing else; dispatched against a fresh composite
it yields exactly that single component (zero duplication on a single
dispatch). -/
theorem c9_shape_build_adds_one (g : GameObject) (e : IShapeEntity) :
    (ShapeEntityBuilder.build g e).components =
      g.components ++ [Component.shapeEntityController e] ∧
    (ShapeEntityBuilder.build { components := [] } e).components =
      [Component.shapeEntityController e] :=
  ⟨rfl, rfl⟩

end Vircadia
